import Mathlib

/-!
Verification of the `wheel` crate (entry-point generator and error-context
wrapper) against its specification.  The definitions below are shallow
embeddings of the Rust source:

* `src/crate/wheel/src/lib.rs` — `IoErrorContext`, `Error`, `MainOutput`
* `src/crate/wheel/src/traits.rs` — `IoResultExt`, `SyncCommandOutputExt`,
  `IsNetworkError`
* `src/crate/wheel-derive/src/lib.rs` — the `#[wheel::main]` attribute macro

Rust `Result<T, E>` is embedded as `Except E T`, `io::Error` as a pair of an
`io::ErrorKind` and the text its `Display` impl produces, and `PathBuf` /
`Cow<'static, str>` as `String`.
-/

namespace Wheel

/-- The subset of `std::io::ErrorKind` variants that the crate inspects,
plus a catch-all `other` for every remaining variant. -/
inductive IoErrorKind where
  | alreadyExists
  | brokenPipe
  | connectionAborted
  | connectionRefused
  | connectionReset
  | hostUnreachable
  | networkUnreachable
  | notFound
  | permissionDenied
  | timedOut
  | unexpectedEof
  | other
  deriving DecidableEq

/-- Embedding of `std::io::Error`: its `kind()` together with the text its
`Display` impl produces (`msg`). -/
structure IoError where
  kind : IoErrorKind
  msg : String
  deriving DecidableEq

/-- Embeds `wheel::IoErrorContext` (src/crate/wheel/src/lib.rs lines 83–93). -/
inductive IoErrorContext where
  | unknown
  | path (p : String)
  | doublePath (src dst : String)
  | command (name : String)
  deriving DecidableEq

/-- Embeds `impl fmt::Display for IoErrorContext` (src/crate/wheel/src/lib.rs
lines 95–104). -/
def IoErrorContext.display : IoErrorContext → String
  | .unknown => "I/O error"
  | .path p => "I/O error at " ++ p
  | .doublePath src dst => "I/O error at " ++ src ++ " and " ++ dst
  | .command name => "in command `" ++ name ++ "`"

/-- Embedding of `std::process::ExitStatus` as the optional exit code
(`none` models termination by signal). -/
structure ExitStatus where
  code : Option Int
  deriving DecidableEq

/-- Rust `ExitStatus::success`: the process exited with code 0. -/
def ExitStatus.success (s : ExitStatus) : Bool := s.code == some 0

/-- Unix `Display` for `ExitStatus`; the signal case of the real impl prints
the signal, which this embedding does not track. -/
def ExitStatus.display (s : ExitStatus) : String :=
  match s.code with
  | some c => "exit status: " ++ toString c
  | none => "terminated by signal"

/-- Embedding of `std::process::Output`. -/
structure Output where
  status : ExitStatus
  stdout : String
  stderr : String
  deriving DecidableEq

/-- Embeds `wheel::Error` (src/crate/wheel/src/lib.rs lines 110–182), restricted to
the variants present without optional cargo features: `CommandExit`,
`CommandExitStatus` and `Io`. -/
inductive Error where
  | commandExit (name : String) (output : Output)
  | commandExitStatus (name : String) (status : ExitStatus)
  | io (inner : IoError) (context : IoErrorContext)
  deriving DecidableEq

/-- The `Display` impl `thiserror` derives from the `#[error(...)]`
attributes on `wheel::Error`. -/
def Error.display : Error → String
  | .commandExit name output =>
      "command `" ++ name ++ "` exited with " ++ output.status.display
  | .commandExitStatus name status =>
      "command `" ++ name ++ "` exited with " ++ status.display
  | .io inner context => context.display ++ ": " ++ inner.msg

/- `impl IoResultExt for io::Result<T>` (src/crate/wheel/src/traits.rs
lines 87–119).  Rust's `T::default()` in `exist_ok` / `missing_ok` is passed
explicitly as the `d` argument. -/
namespace IoResultExt

variable {α : Type}

/-- Method `at_unknown`: `self.map_err(|inner| Error::Io { inner, context: Unknown })`. -/
def at_unknown : Except IoError α → Except Error α
  | .error inner => .error (.io inner .unknown)
  | .ok v => .ok v

/-- Method `at`: annotate the error with a single path. -/
def «at» : Except IoError α → String → Except Error α
  | .error inner, path => .error (.io inner (.path path))
  | .ok v, _ => .ok v

/-- Method `at2`: annotate the error with a source and a destination path. -/
def at2 : Except IoError α → String → String → Except Error α
  | .error inner, src, dst => .error (.io inner (.doublePath src dst))
  | .ok v, _, _ => .ok v

/-- Method `at_command`: annotate the error with a command name. -/
def at_command : Except IoError α → String → Except Error α
  | .error inner, name => .error (.io inner (.command name))
  | .ok v, _ => .ok v

/-- Method `exist_ok`: `Err(e)` with kind `AlreadyExists` becomes `Ok(default)`. -/
def exist_ok (d : α) : Except IoError α → Except IoError α
  | .error e => if e.kind = .alreadyExists then .ok d else .error e
  | .ok v => .ok v

/-- Method `missing_ok`: `Err(e)` with kind `NotFound` becomes `Ok(default)`. -/
def missing_ok (d : α) : Except IoError α → Except IoError α
  | .error e => if e.kind = .notFound then .ok d else .error e
  | .ok v => .ok v

end IoResultExt

/- `impl IoResultExt for Result<T>` (src/crate/wheel/src/traits.rs
lines 121–165): re-annotation of an already unified `wheel::Error`.  Only an
`Error::Io` payload is rewritten; every other value passes through. -/
namespace ResultExt

variable {α : Type}

/-- Method `at_unknown` on `Result<T>`: replace an `Io` context by `Unknown`. -/
def at_unknown : Except Error α → Except Error α
  | .error (.io inner _) => .error (.io inner .unknown)
  | r => r

/-- Method `at` on `Result<T>`: replace an `Io` context by `Path(path)`. -/
def «at» : Except Error α → String → Except Error α
  | .error (.io inner _), path => .error (.io inner (.path path))
  | r, _ => r

/-- Method `at2` on `Result<T>`: replace an `Io` context by `DoublePath(src, dst)`. -/
def at2 : Except Error α → String → String → Except Error α
  | .error (.io inner _), src, dst => .error (.io inner (.doublePath src dst))
  | r, _, _ => r

/-- Method `at_command` on `Result<T>`: replace an `Io` context by `Command(name)`. -/
def at_command : Except Error α → String → Except Error α
  | .error (.io inner _), name => .error (.io inner (.command name))
  | r, _ => r

/-- Method `exist_ok` on `Result<T>`: an `Io` error whose inner kind is
`AlreadyExists` becomes `Ok(default)`. -/
def exist_ok (d : α) : Except Error α → Except Error α
  | .error (.io inner context) =>
      if inner.kind = .alreadyExists then .ok d else .error (.io inner context)
  | r => r

/-- Method `missing_ok` on `Result<T>`: an `Io` error whose inner kind is
`NotFound` becomes `Ok(default)`. -/
def missing_ok (d : α) : Except Error α → Except Error α
  | .error (.io inner context) =>
      if inner.kind = .notFound then .ok d else .error (.io inner context)
  | r => r

end ResultExt

/-- Values accepted by the `MainOutput` trait
(src/crate/wheel/src/lib.rs lines 195–237): `()`, `bool`, `i32`, and
`Result` values whose `Ok` payload recursively satisfies the contract and
whose `Err` payload is displayable and debuggable.  An error value carries
the text its `Display` impl produces and the text its `Debug` impl
produces. -/
inductive MainVal where
  | unit
  | boolVal (b : Bool)
  | intVal (code : Int)
  | okVal (v : MainVal)
  | errVal (display debugRepr : String)
  deriving DecidableEq

/-- Rust `MainOutput::exit(self, cmd_name, debug)`, returning the list of lines
printed to standard error followed by the process exit status:
`()` exits 0; `bool` exits 0 for `true` and 1 for `false`; `i32` exits with
itself; `Ok(x)` recurses; `Err(e)` prints `"<cmd_name>: <e>"`, prints
`"debug info: <e:?>"` when `debug` is set, and exits 1. -/
def MainOutput.exit : MainVal → String → Bool → List String × Int
  | .unit, _, _ => ([], 0)
  | .boolVal b, _, _ => ([], if b then 0 else 1)
  | .intVal code, _, _ => ([], code)
  | .okVal v, cmdName, debug => MainOutput.exit v cmdName debug
  | .errVal disp dbg, cmdName, debug =>
      ((cmdName ++ ": " ++ disp) :: (if debug then ["debug info: " ++ dbg] else []), 1)

/-- Embeds `impl IsNetworkError for io::Error` (src/crate/wheel/src/traits.rs
lines 536–555): a `matches!` over eight `ErrorKind`s, or a comparison of the
`Display` text against three OS-specific DNS-resolution failure messages. -/
def IoError.is_network_error (e : IoError) : Bool :=
  (match e.kind with
    | .brokenPipe => true
    | .connectionAborted => true
    | .connectionRefused => true
    | .connectionReset => true
    | .hostUnreachable => true
    | .networkUnreachable => true
    | .timedOut => true
    | .unexpectedEof => true
    | _ => false) ||
  (e.msg == "No such host is known. (os error 11001)"
    || e.msg == "failed to lookup address information: Temporary failure in name resolution"
    || e.msg == "failed to lookup address information: No address associated with hostname")

/-- Embeds `impl IsNetworkError for Error` (src/crate/wheel/src/traits.rs
lines 525–534): delegate to the inner `io::Error` for the `Io` variant,
`false` for every other variant. -/
def Error.is_network_error : Error → Bool
  | .io inner _ => inner.is_network_error
  | _ => false

/-- The eight `io::ErrorKind`s the network-error heuristic accepts. -/
def networkErrorKinds : List IoErrorKind :=
  [.brokenPipe, .connectionAborted, .connectionRefused, .connectionReset,
   .hostUnreachable, .networkUnreachable, .timedOut, .unexpectedEof]

/-- The fixed list of OS-specific DNS-resolution failure `Display` texts the
network-error heuristic accepts. -/
def dnsResolutionMessages : List String :=
  ["No such host is known. (os error 11001)",
   "failed to lookup address information: Temporary failure in name resolution",
   "failed to lookup address information: No address associated with hostname"]

/- `SyncCommandOutputExt::check` impls (src/crate/wheel/src/traits.rs
lines 375–431). -/

/-- Embeds `impl SyncCommandOutputExt for std::process::Output` (traits.rs
lines 409–419). -/
def Output.check (self : Output) (name : String) : Except Error Output :=
  if self.status.success then .ok self else .error (.commandExit name self)

/-- Embeds `impl SyncCommandOutputExt for std::process::ExitStatus` (traits.rs
lines 421–431). -/
def ExitStatus.check (self : ExitStatus) (name : String) : Except Error ExitStatus :=
  if self.success then .ok self else .error (.commandExitStatus name self)

/-- Embeds `impl SyncCommandOutputExt for &mut std::process::Command` (traits.rs
lines 383–394).  `self.output()` performs I/O, so its result is taken as the
`outputResult` argument: `let output = self.output().at_command(name)?`,
then `Ok(output)` on success and `Err(CommandExit)` otherwise. -/
def Command.check (outputResult : Except IoError Output) (name : String) :
    Except Error Output :=
  match IoResultExt.at_command outputResult name with
  | .error e => .error e
  | .ok output =>
      if output.status.success then .ok output else .error (.commandExit name output)

end Wheel

/-!
The `#[wheel::main]` attribute macro (src/crate/wheel-derive/src/lib.rs
lines 148–349).  Attribute arguments are embedded post-parse: a
`console = lit` or `max_blocking_threads = lit` argument whose literal
parsed to the target integer type carries that value, any unrecognized
argument path is `unsupported`.  Malformed literals abort expansion inside
`base10_parse` with a `syn` error before the logic modelled here runs, so
they are outside this embedding.
-/

namespace WheelDerive

open Wheel

/-- One argument of the `#[wheel::main(...)]` attribute. -/
inductive MainArg where
  | console (port : Nat)
  | customExit
  | debug
  | maxBlockingThreads (val : Int)
  | noDebug
  | rocket
  | verboseDebug
  | unsupported
  deriving DecidableEq

/-- The trait named by the `exit_trait` token stream: `::wheel::CustomExit`
for `custom_exit`, `::wheel::MainOutput` otherwise. -/
inductive ExitTrait where
  | mainOutput
  | customExit
  deriving DecidableEq

/-- The `compile_error!` invocations the macro can emit. -/
inductive CompileError where
  | consoleMultiple
  | exitStrategyConflict
  | maxBlockingThreadsMultiple
  | rocketMultiple
  | unexpectedArg
  | selfReceiver
  | argCount
  deriving DecidableEq

/-- The mutable locals of `main` during the argument loop
(wheel-derive lines 151–156). -/
structure ArgState where
  exitTrait : Option ExitTrait
  debug : Option Bool
  debugArg : Bool
  useRocket : Bool
  consolePort : Option Nat
  maxBlockingThreads : Option Int
  deriving DecidableEq

/-- Initial values of the locals (wheel-derive lines 151–156). -/
def initState : ArgState :=
  { exitTrait := none, debug := some true, debugArg := true,
    useRocket := false, consolePort := none, maxBlockingThreads := none }

/-- One iteration of the `for arg in args` loop (wheel-derive
lines 157–251).  `exit_trait.replace(..).is_some()` is the duplicate check
for the four mutually exclusive exit-strategy parameters. -/
def stepArg (s : ArgState) : MainArg → Except CompileError ArgState
  | .console port =>
      if s.consolePort.isSome then .error .consoleMultiple
      else .ok { s with consolePort := some port }
  | .customExit =>
      if s.exitTrait.isSome then .error .exitStrategyConflict
      else .ok { s with exitTrait := some .customExit, debugArg := false }
  | .debug =>
      if s.exitTrait.isSome then .error .exitStrategyConflict
      else .ok { s with exitTrait := some .mainOutput, debug := some true }
  | .maxBlockingThreads val =>
      if s.maxBlockingThreads.isSome then .error .maxBlockingThreadsMultiple
      else .ok { s with maxBlockingThreads := some val }
  | .noDebug =>
      if s.exitTrait.isSome then .error .exitStrategyConflict
      else .ok { s with exitTrait := some .mainOutput, debug := some false }
  | .rocket =>
      if s.useRocket then .error .rocketMultiple
      else .ok { s with useRocket := true }
  | .verboseDebug =>
      if s.exitTrait.isSome then .error .exitStrategyConflict
      else .ok { s with exitTrait := some .mainOutput, debug := none }
  | .unsupported => .error .unexpectedArg

/-- The argument loop: first `compile_error!` wins, otherwise the final
state of the locals. -/
def processArgs : List MainArg → ArgState → Except CompileError ArgState
  | [], s => .ok s
  | a :: rest, s =>
      match stepArg s a with
      | .ok next => processArgs rest next
      | .error e => .error e

/-- One input of the wrapped routine's signature: a `self` receiver or a
typed parameter. -/
inductive FnArg where
  | receiver
  | typed (ty : String)
  deriving DecidableEq

/-- The parts of the wrapped `ItemFn` the macro inspects. -/
structure MainFn where
  isAsync : Bool
  inputs : List FnArg
  deriving DecidableEq

/-- The expression the generated code assigns to `debug`
(wheel-derive lines 258–262 and 274–287). -/
inductive DebugExpr where
  | const (b : Bool)
  | isVerboseOfArgs
  | verboseFlagPresent
  deriving DecidableEq

/-- How the generated `main` invokes `__wheel_main_inner`
(wheel-derive lines 313–336). -/
inductive RuntimeBootstrap where
  | direct
  | rocketMain
  | tokioMultiThread (maxBlockingThreads : Option Int)
  deriving DecidableEq

/-- The observable shape of the generated entry point
(wheel-derive lines 337–348). -/
structure GeneratedMain where
  consolePort : Option Nat
  takesArgs : Bool
  debugExpr : DebugExpr
  ignoreDebug : Bool
  bootstrap : RuntimeBootstrap
  exitTrait : ExitTrait
  deriving DecidableEq

/-- The part of `main` after the argument loop (wheel-derive
lines 252–348): `exit_trait.unwrap_or(MainOutput)`, the signature analysis
via `at_most_one()`, debug-expression selection, and runtime bootstrap
selection. -/
def expand (s : ArgState) (fn : MainFn) : Except CompileError GeneratedMain :=
  let exitTrait := s.exitTrait.getD .mainOutput
  let bootstrap : RuntimeBootstrap :=
    if fn.isAsync then
      if s.useRocket then .rocketMain else .tokioMultiThread s.maxBlockingThreads
    else .direct
  match fn.inputs with
  | [] =>
      .ok { consolePort := s.consolePort, takesArgs := false,
            debugExpr := match s.debug with
              | some b => .const b
              | none => .verboseFlagPresent,
            ignoreDebug := !s.debugArg, bootstrap := bootstrap,
            exitTrait := exitTrait }
  | [.typed _] =>
      .ok { consolePort := s.consolePort, takesArgs := true,
            debugExpr := match s.debug with
              | some b => .const b
              | none => .isVerboseOfArgs,
            ignoreDebug := !s.debugArg, bootstrap := bootstrap,
            exitTrait := exitTrait }
  | [.receiver] => .error .selfReceiver
  | _ :: _ :: _ => .error .argCount

/-- The whole `#[wheel::main]` attribute macro: process the attribute
arguments, then expand against the wrapped function. -/
def main (args : List MainArg) (fn : MainFn) : Except CompileError GeneratedMain :=
  match processArgs args initState with
  | .error e => .error e
  | .ok s => expand s fn

/-- Runtime value of the `max_blocking_threads` expression the macro
generates (wheel-derive lines 321–327) when the detected
`available_parallelism` is `p`: the value itself if positive, otherwise
`p.checked_add_signed(v).unwrap_or(1)`, which is `p + v` when that sum is
non-negative and `1` when it is negative. -/
def resolveMaxBlockingThreads (v : Int) (p : Nat) : Nat :=
  if 0 < v then v.toNat
  else if (p : Int) + v < 0 then 1 else ((p : Int) + v).toNat

/-- The four mutually exclusive exit-strategy parameters. -/
def isExitArg : MainArg → Bool
  | .customExit => true
  | .debug => true
  | .noDebug => true
  | .verboseDebug => true
  | _ => false

/-- Is this argument `console = _`? -/
def isConsoleArg : MainArg → Bool
  | .console _ => true
  | _ => false

/-- Is this argument `rocket`? -/
def isRocketArg : MainArg → Bool
  | .rocket => true
  | _ => false

/-- Is this argument `max_blocking_threads = _`? -/
def isMbtArg : MainArg → Bool
  | .maxBlockingThreads _ => true
  | _ => false

/-- Is this argument unrecognized? -/
def isUnsupportedArg : MainArg → Bool
  | .unsupported => true
  | _ => false

/-- Number of exit-strategy parameters among the attribute arguments. -/
def exitArgCount (args : List MainArg) : Nat := (args.filter isExitArg).length

/-- Number of `console = _` arguments. -/
def consoleCount (args : List MainArg) : Nat := (args.filter isConsoleArg).length

/-- Number of `rocket` arguments. -/
def rocketCount (args : List MainArg) : Nat := (args.filter isRocketArg).length

/-- Number of `max_blocking_threads = _` arguments. -/
def mbtCount (args : List MainArg) : Nat := (args.filter isMbtArg).length

/-- Number of unrecognized arguments. -/
def unsupportedCount (args : List MainArg) : Nat :=
  (args.filter isUnsupportedArg).length

/-- The three "specified multiple times" compile errors. -/
def isMultipleError : CompileError → Bool
  | .consoleMultiple => true
  | .rocketMultiple => true
  | .maxBlockingThreadsMultiple => true
  | _ => false

end WheelDerive

/-!
Claim theorems.
-/

open Wheel WheelDerive

/-- C2: `MainOutput::exit` exits with status 0 for `()`, 0 for `true` and 1
for `false`, the value itself for an `i32`, recurses through `Ok`, and for
`Err(e)` prints `"<name>: <display of e>"` to standard error, additionally
prints `"debug info: <debug of e>"` if and only if the debug flag is set,
then exits with status 1. -/
theorem main_output_exit_spec (name : String) (d : Bool) :
    MainOutput.exit .unit name d = ([], 0)
    ∧ MainOutput.exit (.boolVal true) name d = ([], 0)
    ∧ MainOutput.exit (.boolVal false) name d = ([], 1)
    ∧ (∀ c : Int, MainOutput.exit (.intVal c) name d = ([], c))
    ∧ (∀ v : MainVal, MainOutput.exit (.okVal v) name d = MainOutput.exit v name d)
    ∧ (∀ disp dbg : String,
        MainOutput.exit (.errVal disp dbg) name d =
          ((name ++ ": " ++ disp) ::
            (if d then ["debug info: " ++ dbg] else []), 1)) := by
  refine ⟨rfl, rfl, rfl, fun c => rfl, fun v => rfl, fun disp dbg => ?_⟩
  cases d <;> rfl

/-- C3: the displayed form of an annotated raw I/O failure is
`"I/O error: <cause>"` after `at_unknown`, `"I/O error at <path>: <cause>"`
after `at(path)`, `"I/O error at <src> and <dst>: <cause>"` after
`at2(src, dst)`, and ```"in command `<name>`: <cause>"``` after
`at_command(name)`. -/
theorem io_annotation_display (α : Type) (e : IoError) (p src dst name : String) :
    (∃ err : Error,
      IoResultExt.at_unknown (Except.error e : Except IoError α) = Except.error err
      ∧ err.display = "I/O error: " ++ e.msg)
    ∧ (∃ err : Error,
      IoResultExt.«at» (Except.error e : Except IoError α) p = Except.error err
      ∧ err.display = "I/O error at " ++ p ++ ": " ++ e.msg)
    ∧ (∃ err : Error,
      IoResultExt.at2 (Except.error e : Except IoError α) src dst = Except.error err
      ∧ err.display = "I/O error at " ++ src ++ " and " ++ dst ++ ": " ++ e.msg)
    ∧ (∃ err : Error,
      IoResultExt.at_command (Except.error e : Except IoError α) name = Except.error err
      ∧ err.display = "in command `" ++ name ++ "`: " ++ e.msg) := by
  refine ⟨⟨_, rfl, ?_⟩, ⟨_, rfl, ?_⟩, ⟨_, rfl, ?_⟩, ⟨_, rfl, ?_⟩⟩
  · show ("I/O error" ++ ": ") ++ e.msg = "I/O error: " ++ e.msg
    rw [show ("I/O error" ++ ": " : String) = "I/O error: " from by decide]
  · rfl
  · rfl
  · show ((("in command `" ++ name) ++ "`") ++ ": ") ++ e.msg
      = (("in command `" ++ name) ++ "`: ") ++ e.msg
    rw [String.append_assoc ("in command `" ++ name),
      show ("`" ++ ": " : String) = "`: " from by decide]

/-- C4: re-annotating an already unified `Error::Io` value with `at_unknown`,
`at`, `at2` or `at_command` keeps the underlying I/O cause and replaces only
the context with the newly supplied one. -/
theorem result_reannotation (α : Type) (inner : IoError) (context : IoErrorContext)
    (p src dst name : String) :
    ResultExt.at_unknown (Except.error (Error.io inner context) : Except Error α)
        = Except.error (Error.io inner IoErrorContext.unknown)
    ∧ ResultExt.«at» (Except.error (Error.io inner context) : Except Error α) p
        = Except.error (Error.io inner (IoErrorContext.path p))
    ∧ ResultExt.at2 (Except.error (Error.io inner context) : Except Error α) src dst
        = Except.error (Error.io inner (IoErrorContext.doublePath src dst))
    ∧ ResultExt.at_command (Except.error (Error.io inner context) : Except Error α) name
        = Except.error (Error.io inner (IoErrorContext.command name)) :=
  ⟨rfl, rfl, rfl, rfl⟩

/-- C6: `is_network_error` on the unified error returns `true` exactly for an
`Io` variant whose kind is one of the eight network kinds or whose display
text is one of the fixed DNS-resolution failure messages, and `false` for
every other variant. -/
theorem is_network_error_characterization (e : Error) :
    e.is_network_error = true ↔
      ∃ inner context, e = Error.io inner context
        ∧ (inner.kind ∈ networkErrorKinds ∨ inner.msg ∈ dnsResolutionMessages) := by
  constructor
  · intro h
    cases e with
    | io inner context =>
        refine ⟨inner, context, rfl, ?_⟩
        have h' : inner.is_network_error = true := h
        unfold IoError.is_network_error at h'
        rw [Bool.or_eq_true] at h'
        rcases h' with hk | hm
        · left
          revert hk
          cases inner.kind <;> simp [networkErrorKinds]
        · right
          simp only [Bool.or_eq_true, beq_iff_eq] at hm
          simp only [dnsResolutionMessages, List.mem_cons, List.not_mem_nil, or_false]
          tauto
    | commandExit name output => simp [Error.is_network_error] at h
    | commandExitStatus name status => simp [Error.is_network_error] at h
  · rintro ⟨inner, context, rfl, hcase⟩
    show inner.is_network_error = true
    unfold IoError.is_network_error
    rw [Bool.or_eq_true]
    rcases hcase with hk | hm
    · left
      simp only [networkErrorKinds, List.mem_cons, List.not_mem_nil, or_false] at hk
      rcases hk with h | h | h | h | h | h | h | h <;> rw [h]
    · right
      simp only [dnsResolutionMessages, List.mem_cons, List.not_mem_nil, or_false] at hm
      rcases hm with h | h | h <;> simp [h]

/-- C7: `exist_ok` is idempotent on both `io::Result` and the unified
`Result`, and passes through unchanged every result whose failure kind is
not `AlreadyExists` (including non-I/O unified errors). -/
theorem exist_ok_idempotent (α : Type) (d : α) (r : Except IoError α) (u : Except Error α) :
    IoResultExt.exist_ok d (IoResultExt.exist_ok d r) = IoResultExt.exist_ok d r
    ∧ ResultExt.exist_ok d (ResultExt.exist_ok d u) = ResultExt.exist_ok d u
    ∧ (∀ e : IoError, r = Except.error e → e.kind ≠ IoErrorKind.alreadyExists →
        IoResultExt.exist_ok d r = r)
    ∧ (∀ (inner : IoError) (context : IoErrorContext),
        u = Except.error (Error.io inner context) →
        inner.kind ≠ IoErrorKind.alreadyExists → ResultExt.exist_ok d u = u)
    ∧ (∀ err : Error, u = Except.error err →
        (∀ inner context, err ≠ Error.io inner context) → ResultExt.exist_ok d u = u) := by
  refine ⟨?_, ?_, ?_, ?_, ?_⟩
  · cases r with
    | ok v => rfl
    | error e =>
        by_cases h : e.kind = IoErrorKind.alreadyExists <;>
          simp [IoResultExt.exist_ok, h]
  · cases u with
    | ok v => rfl
    | error err =>
        cases err with
        | io inner context =>
            by_cases h : inner.kind = IoErrorKind.alreadyExists <;>
              simp [ResultExt.exist_ok, h]
        | commandExit name output => rfl
        | commandExitStatus name status => rfl
  · rintro e rfl h
    simp [IoResultExt.exist_ok, h]
  · rintro inner context rfl h
    simp [ResultExt.exist_ok, h]
  · rintro err rfl h
    cases err with
    | io inner context => exact absurd rfl (h inner context)
    | commandExit name output => rfl
    | commandExitStatus name status => rfl

/-- C7 witness: a `NotFound` failure passes through `exist_ok` unchanged. -/
theorem exist_ok_idempotent_witness :
    IoResultExt.exist_ok (0 : Nat) (Except.error ⟨IoErrorKind.notFound, "x"⟩)
      = Except.error ⟨IoErrorKind.notFound, "x"⟩ :=
  (exist_ok_idempotent Nat 0 (Except.error ⟨IoErrorKind.notFound, "x"⟩)
    (Except.ok 0)).2.2.1 ⟨IoErrorKind.notFound, "x"⟩ rfl (by decide)

/-- C9: `check(name)` on a captured `Output` returns `Ok` with the output
exactly when the child exited successfully and otherwise a `CommandExit`
error carrying the name and full output; on a bare `ExitStatus` it returns
the status or a `CommandExitStatus` error; on `&mut Command` it behaves as
`Output::check` once the output was captured and annotates the spawn failure
with the command name otherwise. -/
theorem command_check_spec (name : String) (output : Output) (status : ExitStatus) :
    (Output.check output name = Except.ok output ↔ output.status.success = true)
    ∧ (output.status.success = false →
        Output.check output name = Except.error (Error.commandExit name output))
    ∧ (ExitStatus.check status name = Except.ok status ↔ status.success = true)
    ∧ (status.success = false →
        ExitStatus.check status name = Except.error (Error.commandExitStatus name status))
    ∧ Command.check (Except.ok output) name = Output.check output name
    ∧ (∀ e : IoError, Command.check (Except.error e) name
        = Except.error (Error.io e (IoErrorContext.command name))) := by
  refine ⟨?_, ?_, ?_, ?_, rfl, fun e => rfl⟩
  · by_cases h : output.status.success <;> simp [Output.check, h]
  · intro h
    simp [Output.check, h]
  · by_cases h : status.success <;> simp [ExitStatus.check, h]
  · intro h
    simp [ExitStatus.check, h]

/-- C9 witness: a child that exited with status 3 turns into a
`CommandExitStatus` error naming the command. -/
theorem command_check_spec_witness :
    ExitStatus.check ⟨some 3⟩ "c" = Except.error (Error.commandExitStatus "c" ⟨some 3⟩) :=
  (command_check_spec "c" ⟨⟨some 3⟩, "", ""⟩ ⟨some 3⟩).2.2.2.1 (by decide)

/-!
Helper lemmas about the attribute-argument loop of `#[wheel::main]`.
-/

theorem exitArgCount_cons (a : MainArg) (rest : List MainArg) :
    exitArgCount (a :: rest) = (isExitArg a).toNat + exitArgCount rest := by
  cases h : isExitArg a
  · simp [exitArgCount, List.filter_cons, h]
  · simp [exitArgCount, List.filter_cons, h]
    omega

theorem consoleCount_cons (a : MainArg) (rest : List MainArg) :
    consoleCount (a :: rest) = (isConsoleArg a).toNat + consoleCount rest := by
  cases h : isConsoleArg a
  · simp [consoleCount, List.filter_cons, h]
  · simp [consoleCount, List.filter_cons, h]
    omega

theorem rocketCount_cons (a : MainArg) (rest : List MainArg) :
    rocketCount (a :: rest) = (isRocketArg a).toNat + rocketCount rest := by
  cases h : isRocketArg a
  · simp [rocketCount, List.filter_cons, h]
  · simp [rocketCount, List.filter_cons, h]
    omega

theorem mbtCount_cons (a : MainArg) (rest : List MainArg) :
    mbtCount (a :: rest) = (isMbtArg a).toNat + mbtCount rest := by
  cases h : isMbtArg a
  · simp [mbtCount, List.filter_cons, h]
  · simp [mbtCount, List.filter_cons, h]
    omega

theorem unsupportedCount_cons (a : MainArg) (rest : List MainArg) :
    unsupportedCount (a :: rest) = (isUnsupportedArg a).toNat + unsupportedCount rest := by
  cases h : isUnsupportedArg a
  · simp [unsupportedCount, List.filter_cons, h]
  · simp [unsupportedCount, List.filter_cons, h]
    omega

theorem processArgs_cons (a : MainArg) (rest : List MainArg) (s s' : ArgState)
    (hstep : stepArg s a = Except.ok s') :
    processArgs (a :: rest) s = processArgs rest s' := by
  simp [processArgs, hstep]

theorem processArgs_cons_error (a : MainArg) (rest : List MainArg) (s : ArgState)
    (e : CompileError) (hstep : stepArg s a = Except.error e) :
    processArgs (a :: rest) s = Except.error e := by
  simp [processArgs, hstep]

theorem step_error_of_exit (s : ArgState) (a : MainArg) (ha : isExitArg a = true)
    (hf : s.exitTrait.isSome = true) :
    stepArg s a = Except.error CompileError.exitStrategyConflict := by
  cases a <;> simp_all [stepArg, isExitArg]

theorem step_ok_exit (s : ArgState) (a : MainArg) (s' : ArgState) (ha : isExitArg a = true)
    (hstep : stepArg s a = Except.ok s') : s'.exitTrait.isSome = true := by
  cases a with
  | customExit | debug | noDebug | verboseDebug =>
      simp only [stepArg] at hstep
      split at hstep
      · exact Except.noConfusion hstep
      · injection hstep with h
        rw [← h]
        rfl
  | console port | maxBlockingThreads val | rocket | unsupported =>
      exact Bool.noConfusion ha

theorem step_preserves_exit (s : ArgState) (a : MainArg) (s' : ArgState)
    (hstep : stepArg s a = Except.ok s') (hf : s.exitTrait.isSome = true) :
    s'.exitTrait.isSome = true := by
  cases a with
  | console port | maxBlockingThreads val | rocket =>
      simp only [stepArg] at hstep
      split at hstep
      · exact Except.noConfusion hstep
      · injection hstep with h
        rw [← h]
        exact hf
  | customExit | debug | noDebug | verboseDebug =>
      simp only [stepArg] at hstep
      rw [if_pos hf] at hstep
      exact Except.noConfusion hstep
  | unsupported => exact Except.noConfusion hstep

theorem step_error_of_console (s : ArgState) (a : MainArg) (ha : isConsoleArg a = true)
    (hf : s.consolePort.isSome = true) :
    stepArg s a = Except.error CompileError.consoleMultiple := by
  cases a <;> simp_all [stepArg, isConsoleArg]

theorem step_ok_console (s : ArgState) (a : MainArg) (s' : ArgState)
    (ha : isConsoleArg a = true) (hstep : stepArg s a = Except.ok s') :
    s'.consolePort.isSome = true := by
  cases a with
  | console port =>
      simp only [stepArg] at hstep
      split at hstep
      · exact Except.noConfusion hstep
      · injection hstep with h
        rw [← h]
        rfl
  | customExit | debug | noDebug | verboseDebug | maxBlockingThreads val | rocket
  | unsupported => exact Bool.noConfusion ha

theorem step_preserves_console (s : ArgState) (a : MainArg) (s' : ArgState)
    (hstep : stepArg s a = Except.ok s') (hf : s.consolePort.isSome = true) :
    s'.consolePort.isSome = true := by
  cases a with
  | customExit | debug | noDebug | verboseDebug | maxBlockingThreads val | rocket =>
      simp only [stepArg] at hstep
      split at hstep
      · exact Except.noConfusion hstep
      · injection hstep with h
        rw [← h]
        exact hf
  | console port =>
      simp only [stepArg] at hstep
      rw [if_pos hf] at hstep
      exact Except.noConfusion hstep
  | unsupported => exact Except.noConfusion hstep

theorem step_error_of_rocket (s : ArgState) (a : MainArg) (ha : isRocketArg a = true)
    (hf : s.useRocket = true) :
    stepArg s a = Except.error CompileError.rocketMultiple := by
  cases a <;> simp_all [stepArg, isRocketArg]

theorem step_ok_rocket (s : ArgState) (a : MainArg) (s' : ArgState)
    (ha : isRocketArg a = true) (hstep : stepArg s a = Except.ok s') :
    s'.useRocket = true := by
  cases a with
  | rocket =>
      simp only [stepArg] at hstep
      split at hstep
      · exact Except.noConfusion hstep
      · injection hstep with h
        rw [← h]
  | customExit | debug | noDebug | verboseDebug | maxBlockingThreads val | console port
  | unsupported => exact Bool.noConfusion ha

theorem step_preserves_rocket (s : ArgState) (a : MainArg) (s' : ArgState)
    (hstep : stepArg s a = Except.ok s') (hf : s.useRocket = true) :
    s'.useRocket = true := by
  cases a with
  | customExit | debug | noDebug | verboseDebug | maxBlockingThreads val | console port =>
      simp only [stepArg] at hstep
      split at hstep
      · exact Except.noConfusion hstep
      · injection hstep with h
        rw [← h]
        exact hf
  | rocket =>
      simp only [stepArg] at hstep
      rw [if_pos hf] at hstep
      exact Except.noConfusion hstep
  | unsupported => exact Except.noConfusion hstep

theorem step_error_of_mbt (s : ArgState) (a : MainArg) (ha : isMbtArg a = true)
    (hf : s.maxBlockingThreads.isSome = true) :
    stepArg s a = Except.error CompileError.maxBlockingThreadsMultiple := by
  cases a <;> simp_all [stepArg, isMbtArg]

theorem step_ok_mbt (s : ArgState) (a : MainArg) (s' : ArgState)
    (ha : isMbtArg a = true) (hstep : stepArg s a = Except.ok s') :
    s'.maxBlockingThreads.isSome = true := by
  cases a with
  | maxBlockingThreads val =>
      simp only [stepArg] at hstep
      split at hstep
      · exact Except.noConfusion hstep
      · injection hstep with h
        rw [← h]
        rfl
  | customExit | debug | noDebug | verboseDebug | rocket | console port
  | unsupported => exact Bool.noConfusion ha

theorem step_preserves_mbt (s : ArgState) (a : MainArg) (s' : ArgState)
    (hstep : stepArg s a = Except.ok s') (hf : s.maxBlockingThreads.isSome = true) :
    s'.maxBlockingThreads.isSome = true := by
  cases a with
  | customExit | debug | noDebug | verboseDebug | rocket | console port =>
      simp only [stepArg] at hstep
      split at hstep
      · exact Except.noConfusion hstep
      · injection hstep with h
        rw [← h]
        exact hf
  | maxBlockingThreads val =>
      simp only [stepArg] at hstep
      rw [if_pos hf] at hstep
      exact Except.noConfusion hstep
  | unsupported => exact Except.noConfusion hstep

theorem processArgs_two_error
    (f : ArgState → Bool) (isA : MainArg → Bool)
    (h1 : ∀ s a, isA a = true → f s = true → ∃ e, stepArg s a = Except.error e)
    (h2 : ∀ s a s', isA a = true → stepArg s a = Except.ok s' → f s' = true)
    (h3 : ∀ s a s', stepArg s a = Except.ok s' → f s = true → f s' = true) :
    ∀ (args : List MainArg) (s : ArgState),
      2 ≤ (args.filter isA).length + (f s).toNat →
      ∃ e, processArgs args s = Except.error e := by
  intro args
  induction args with
  | nil =>
      intro s h
      exfalso
      cases hf : f s <;> rw [hf] at h <;> simp at h
  | cons a rest ih =>
      intro s h
      cases hstep : stepArg s a with
      | error e => exact ⟨e, processArgs_cons_error a rest s e hstep⟩
      | ok s' =>
          rw [processArgs_cons a rest s s' hstep]
          apply ih
          rw [List.filter_cons] at h
          by_cases ha : isA a = true
          · have hfs : f s = false := by
              cases hfs : f s
              · rfl
              · obtain ⟨e, he⟩ := h1 s a ha hfs
                rw [he] at hstep
                exact Except.noConfusion hstep
            have hfs' : f s' = true := h2 s a s' ha hstep
            rw [if_pos ha, hfs] at h
            rw [hfs']
            simp only [List.length_cons, Bool.toNat_false, Bool.toNat_true] at h ⊢
            omega
          · rw [if_neg ha] at h
            cases hfs : f s with
            | false =>
                rw [hfs] at h
                cases hfs' : f s' <;>
                  simp only [Bool.toNat_false, Bool.toNat_true] at h ⊢ <;> omega
            | true =>
                have hfs' := h3 s a s' hstep hfs
                rw [hfs] at h
                rw [hfs']
                exact h


theorem processArgs_conflict :
    ∀ (args : List MainArg) (s : ArgState),
      unsupportedCount args = 0 →
      consoleCount args + (s.consolePort.isSome).toNat ≤ 1 →
      rocketCount args + (s.useRocket).toNat ≤ 1 →
      mbtCount args + (s.maxBlockingThreads.isSome).toNat ≤ 1 →
      2 ≤ exitArgCount args + (s.exitTrait.isSome).toNat →
      processArgs args s = Except.error CompileError.exitStrategyConflict := by
  intro args
  induction args with
  | nil =>
      intro s _ _ _ _ he
      exfalso
      cases hf : s.exitTrait.isSome <;> rw [hf] at he <;> simp [exitArgCount] at he
  | cons a rest ih =>
      intro s hu hc hr hm he
      rw [unsupportedCount_cons] at hu
      rw [consoleCount_cons] at hc
      rw [rocketCount_cons] at hr
      rw [mbtCount_cons] at hm
      rw [exitArgCount_cons] at he
      cases a with
      | console port =>
          simp only [isConsoleArg, isRocketArg, isMbtArg, isUnsupportedArg, isExitArg,
            Bool.toNat_true, Bool.toNat_false, Nat.zero_add] at hu hc hr hm he
          have hcp : s.consolePort.isSome = false := by
            cases hx : s.consolePort.isSome
            · rfl
            · rw [hx] at hc
              simp only [Bool.toNat_true] at hc
              omega
          have hstep : stepArg s (MainArg.console port) = Except.ok { s with consolePort := some port } := by
            simp [stepArg, hcp]
          rw [processArgs_cons _ rest s _ hstep]
          apply ih
          · exact hu
          · show consoleCount rest + (true : Bool).toNat ≤ 1
            rw [hcp] at hc
            simp only [Bool.toNat_true, Bool.toNat_false] at hc ⊢
            omega
          · exact hr
          · exact hm
          · exact he
      | rocket =>
          simp only [isConsoleArg, isRocketArg, isMbtArg, isUnsupportedArg, isExitArg,
            Bool.toNat_true, Bool.toNat_false, Nat.zero_add] at hu hc hr hm he
          have hrk : s.useRocket = false := by
            cases hx : s.useRocket
            · rfl
            · rw [hx] at hr
              simp only [Bool.toNat_true] at hr
              omega
          have hstep : stepArg s MainArg.rocket = Except.ok { s with useRocket := true } := by
            simp [stepArg, hrk]
          rw [processArgs_cons _ rest s _ hstep]
          apply ih
          · exact hu
          · exact hc
          · show rocketCount rest + (true : Bool).toNat ≤ 1
            rw [hrk] at hr
            simp only [Bool.toNat_true, Bool.toNat_false] at hr ⊢
            omega
          · exact hm
          · exact he
      | maxBlockingThreads val =>
          simp only [isConsoleArg, isRocketArg, isMbtArg, isUnsupportedArg, isExitArg,
            Bool.toNat_true, Bool.toNat_false, Nat.zero_add] at hu hc hr hm he
          have hmb : s.maxBlockingThreads.isSome = false := by
            cases hx : s.maxBlockingThreads.isSome
            · rfl
            · rw [hx] at hm
              simp only [Bool.toNat_true] at hm
              omega
          have hstep : stepArg s (MainArg.maxBlockingThreads val) = Except.ok { s with maxBlockingThreads := some val } := by
            simp [stepArg, hmb]
          rw [processArgs_cons _ rest s _ hstep]
          apply ih
          · exact hu
          · exact hc
          · exact hr
          · show mbtCount rest + (true : Bool).toNat ≤ 1
            rw [hmb] at hm
            simp only [Bool.toNat_true, Bool.toNat_false] at hm ⊢
            omega
          · exact he
      | unsupported =>
          exfalso
          simp only [isUnsupportedArg, Bool.toNat_true] at hu
          omega
      | customExit =>
          simp only [isConsoleArg, isRocketArg, isMbtArg, isUnsupportedArg, isExitArg,
            Bool.toNat_true, Bool.toNat_false, Nat.zero_add] at hu hc hr hm he
          cases hx : s.exitTrait.isSome with
          | true => rw [processArgs_cons_error _ rest s _ (step_error_of_exit s MainArg.customExit rfl hx)]
          | false =>
              have hstep : stepArg s MainArg.customExit = Except.ok { s with exitTrait := some ExitTrait.customExit, debugArg := false } := by
                simp [stepArg, hx]
              rw [processArgs_cons _ rest s _ hstep]
              apply ih
              · exact hu
              · exact hc
              · exact hr
              · exact hm
              · show 2 ≤ exitArgCount rest + (true : Bool).toNat
                rw [hx] at he
                simp only [Bool.toNat_true, Bool.toNat_false] at he ⊢
                omega
      | debug =>
          simp only [isConsoleArg, isRocketArg, isMbtArg, isUnsupportedArg, isExitArg,
            Bool.toNat_true, Bool.toNat_false, Nat.zero_add] at hu hc hr hm he
          cases hx : s.exitTrait.isSome with
          | true => rw [processArgs_cons_error _ rest s _ (step_error_of_exit s MainArg.debug rfl hx)]
          | false =>
              have hstep : stepArg s MainArg.debug = Except.ok { s with exitTrait := some ExitTrait.mainOutput, debug := some true } := by
                simp [stepArg, hx]
              rw [processArgs_cons _ rest s _ hstep]
              apply ih
              · exact hu
              · exact hc
              · exact hr
              · exact hm
              · show 2 ≤ exitArgCount rest + (true : Bool).toNat
                rw [hx] at he
                simp only [Bool.toNat_true, Bool.toNat_false] at he ⊢
                omega
      | noDebug =>
          simp only [isConsoleArg, isRocketArg, isMbtArg, isUnsupportedArg, isExitArg,
            Bool.toNat_true, Bool.toNat_false, Nat.zero_add] at hu hc hr hm he
          cases hx : s.exitTrait.isSome with
          | true => rw [processArgs_cons_error _ rest s _ (step_error_of_exit s MainArg.noDebug rfl hx)]
          | false =>
              have hstep : stepArg s MainArg.noDebug = Except.ok { s with exitTrait := some ExitTrait.mainOutput, debug := some false } := by
                simp [stepArg, hx]
              rw [processArgs_cons _ rest s _ hstep]
              apply ih
              · exact hu
              · exact hc
              · exact hr
              · exact hm
              · show 2 ≤ exitArgCount rest + (true : Bool).toNat
                rw [hx] at he
                simp only [Bool.toNat_true, Bool.toNat_false] at he ⊢
                omega
      | verboseDebug =>
          simp only [isConsoleArg, isRocketArg, isMbtArg, isUnsupportedArg, isExitArg,
            Bool.toNat_true, Bool.toNat_false, Nat.zero_add] at hu hc hr hm he
          cases hx : s.exitTrait.isSome with
          | true => rw [processArgs_cons_error _ rest s _ (step_error_of_exit s MainArg.verboseDebug rfl hx)]
          | false =>
              have hstep : stepArg s MainArg.verboseDebug = Except.ok { s with exitTrait := some ExitTrait.mainOutput, debug := none } := by
                simp [stepArg, hx]
              rw [processArgs_cons _ rest s _ hstep]
              apply ih
              · exact hu
              · exact hc
              · exact hr
              · exact hm
              · show 2 ≤ exitArgCount rest + (true : Bool).toNat
                rw [hx] at he
                simp only [Bool.toNat_true, Bool.toNat_false] at he ⊢
                omega

theorem processArgs_dup :
    ∀ (args : List MainArg) (s : ArgState),
      unsupportedCount args = 0 →
      exitArgCount args + (s.exitTrait.isSome).toNat ≤ 1 →
      (2 ≤ consoleCount args + (s.consolePort.isSome).toNat
        ∨ 2 ≤ rocketCount args + (s.useRocket).toNat
        ∨ 2 ≤ mbtCount args + (s.maxBlockingThreads.isSome).toNat) →
      ∃ e, processArgs args s = Except.error e ∧ isMultipleError e = true := by
  intro args
  induction args with
  | nil =>
      intro s _ _ hd
      exfalso
      rcases hd with hd | hd | hd
      · cases hf : s.consolePort.isSome <;> rw [hf] at hd <;> simp [consoleCount] at hd
      · cases hf : s.useRocket <;> rw [hf] at hd <;> simp [rocketCount] at hd
      · cases hf : s.maxBlockingThreads.isSome <;> rw [hf] at hd <;> simp [mbtCount] at hd
  | cons a rest ih =>
      intro s hu hexit hd
      rw [unsupportedCount_cons] at hu
      rw [exitArgCount_cons] at hexit
      rw [consoleCount_cons, rocketCount_cons, mbtCount_cons] at hd
      cases a with
      | console port =>
          simp only [isConsoleArg, isRocketArg, isMbtArg, isUnsupportedArg, isExitArg,
            Bool.toNat_true, Bool.toNat_false, Nat.zero_add] at hu hexit hd
          cases hx : s.consolePort.isSome with
          | true =>
              exact ⟨CompileError.consoleMultiple,
                processArgs_cons_error _ rest s _ (step_error_of_console s (MainArg.console port) rfl hx), rfl⟩
          | false =>
              have hstep : stepArg s (MainArg.console port) = Except.ok { s with consolePort := some port } := by
                simp [stepArg, hx]
              rw [processArgs_cons _ rest s _ hstep]
              apply ih
              · exact hu
              · exact hexit
              · rcases hd with hd | hd | hd
                · left
                  show 2 ≤ consoleCount rest + (true : Bool).toNat
                  rw [hx] at hd
                  simp only [Bool.toNat_true, Bool.toNat_false] at hd ⊢
                  omega
                · right; left; exact hd
                · right; right; exact hd
      | rocket =>
          simp only [isConsoleArg, isRocketArg, isMbtArg, isUnsupportedArg, isExitArg,
            Bool.toNat_true, Bool.toNat_false, Nat.zero_add] at hu hexit hd
          cases hx : s.useRocket with
          | true =>
              exact ⟨CompileError.rocketMultiple,
                processArgs_cons_error _ rest s _ (step_error_of_rocket s MainArg.rocket rfl hx), rfl⟩
          | false =>
              have hstep : stepArg s MainArg.rocket = Except.ok { s with useRocket := true } := by
                simp [stepArg, hx]
              rw [processArgs_cons _ rest s _ hstep]
              apply ih
              · exact hu
              · exact hexit
              · rcases hd with hd | hd | hd
                · left; exact hd
                · right; left
                  show 2 ≤ rocketCount rest + (true : Bool).toNat
                  rw [hx] at hd
                  simp only [Bool.toNat_true, Bool.toNat_false] at hd ⊢
                  omega
                · right; right; exact hd
      | maxBlockingThreads val =>
          simp only [isConsoleArg, isRocketArg, isMbtArg, isUnsupportedArg, isExitArg,
            Bool.toNat_true, Bool.toNat_false, Nat.zero_add] at hu hexit hd
          cases hx : s.maxBlockingThreads.isSome with
          | true =>
              exact ⟨CompileError.maxBlockingThreadsMultiple,
                processArgs_cons_error _ rest s _ (step_error_of_mbt s (MainArg.maxBlockingThreads val) rfl hx), rfl⟩
          | false =>
              have hstep : stepArg s (MainArg.maxBlockingThreads val) = Except.ok { s with maxBlockingThreads := some val } := by
                simp [stepArg, hx]
              rw [processArgs_cons _ rest s _ hstep]
              apply ih
              · exact hu
              · exact hexit
              · rcases hd with hd | hd | hd
                · left; exact hd
                · right; left; exact hd
                · right; right
                  show 2 ≤ mbtCount rest + (true : Bool).toNat
                  rw [hx] at hd
                  simp only [Bool.toNat_true, Bool.toNat_false] at hd ⊢
                  omega
      | unsupported =>
          exfalso
          simp only [isUnsupportedArg, Bool.toNat_true] at hu
          omega
      | customExit =>
          simp only [isConsoleArg, isRocketArg, isMbtArg, isUnsupportedArg, isExitArg,
            Bool.toNat_true, Bool.toNat_false, Nat.zero_add] at hu hexit hd
          have hx : s.exitTrait.isSome = false := by
            cases hxx : s.exitTrait.isSome
            · rfl
            · rw [hxx] at hexit
              simp only [Bool.toNat_true] at hexit
              omega
          have hstep : stepArg s MainArg.customExit = Except.ok { s with exitTrait := some ExitTrait.customExit, debugArg := false } := by
            simp [stepArg, hx]
          rw [processArgs_cons _ rest s _ hstep]
          apply ih
          · exact hu
          · show exitArgCount rest + (true : Bool).toNat ≤ 1
            rw [hx] at hexit
            simp only [Bool.toNat_true, Bool.toNat_false] at hexit ⊢
            omega
          · rcases hd with hd | hd | hd
            · left; exact hd
            · right; left; exact hd
            · right; right; exact hd
      | debug =>
          simp only [isConsoleArg, isRocketArg, isMbtArg, isUnsupportedArg, isExitArg,
            Bool.toNat_true, Bool.toNat_false, Nat.zero_add] at hu hexit hd
          have hx : s.exitTrait.isSome = false := by
            cases hxx : s.exitTrait.isSome
            · rfl
            · rw [hxx] at hexit
              simp only [Bool.toNat_true] at hexit
              omega
          have hstep : stepArg s MainArg.debug = Except.ok { s with exitTrait := some ExitTrait.mainOutput, debug := some true } := by
            simp [stepArg, hx]
          rw [processArgs_cons _ rest s _ hstep]
          apply ih
          · exact hu
          · show exitArgCount rest + (true : Bool).toNat ≤ 1
            rw [hx] at hexit
            simp only [Bool.toNat_true, Bool.toNat_false] at hexit ⊢
            omega
          · rcases hd with hd | hd | hd
            · left; exact hd
            · right; left; exact hd
            · right; right; exact hd
      | noDebug =>
          simp only [isConsoleArg, isRocketArg, isMbtArg, isUnsupportedArg, isExitArg,
            Bool.toNat_true, Bool.toNat_false, Nat.zero_add] at hu hexit hd
          have hx : s.exitTrait.isSome = false := by
            cases hxx : s.exitTrait.isSome
            · rfl
            · rw [hxx] at hexit
              simp only [Bool.toNat_true] at hexit
              omega
          have hstep : stepArg s MainArg.noDebug = Except.ok { s with exitTrait := some ExitTrait.mainOutput, debug := some false } := by
            simp [stepArg, hx]
          rw [processArgs_cons _ rest s _ hstep]
          apply ih
          · exact hu
          · show exitArgCount rest + (true : Bool).toNat ≤ 1
            rw [hx] at hexit
            simp only [Bool.toNat_true, Bool.toNat_false] at hexit ⊢
            omega
          · rcases hd with hd | hd | hd
            · left; exact hd
            · right; left; exact hd
            · right; right; exact hd
      | verboseDebug =>
          simp only [isConsoleArg, isRocketArg, isMbtArg, isUnsupportedArg, isExitArg,
            Bool.toNat_true, Bool.toNat_false, Nat.zero_add] at hu hexit hd
          have hx : s.exitTrait.isSome = false := by
            cases hxx : s.exitTrait.isSome
            · rfl
            · rw [hxx] at hexit
              simp only [Bool.toNat_true] at hexit
              omega
          have hstep : stepArg s MainArg.verboseDebug = Except.ok { s with exitTrait := some ExitTrait.mainOutput, debug := none } := by
            simp [stepArg, hx]
          rw [processArgs_cons _ rest s _ hstep]
          apply ih
          · exact hu
          · show exitArgCount rest + (true : Bool).toNat ≤ 1
            rw [hx] at hexit
            simp only [Bool.toNat_true, Bool.toNat_false] at hexit ⊢
            omega
          · rcases hd with hd | hd | hd
            · left; exact hd
            · right; left; exact hd
            · right; right; exact hd

theorem main_error_of_processArgs (args : List MainArg) (fn : MainFn) (e : CompileError)
    (h : processArgs args initState = Except.error e) :
    WheelDerive.main args fn = Except.error e := by
  simp [WheelDerive.main, h]

theorem expand_signature_error (s : ArgState) (fn : MainFn)
    (h : 2 ≤ fn.inputs.length ∨ FnArg.receiver ∈ fn.inputs) :
    expand s fn = Except.error CompileError.selfReceiver
      ∨ expand s fn = Except.error CompileError.argCount := by
  obtain ⟨isAsync, inputs⟩ := fn
  cases inputs with
  | nil =>
      exfalso
      rcases h with h | h
      · simp at h
      · simp at h
  | cons a rest =>
      cases rest with
      | nil =>
          cases a with
          | receiver => left; rfl
          | typed ty =>
              exfalso
              rcases h with h | h
              · simp at h
              · simp at h
      | cons b rest2 =>
          right
          cases a <;> rfl

/-- C1: whenever two or more of the mutually exclusive exit-strategy flags
`custom_exit`, `debug`, `no_debug`, `verbose_debug` appear in the
`#[wheel::main]` argument list, expansion fails (no flag is ever silently
picked), and when the remaining arguments are themselves well-formed the
reported error is exactly the mutual-exclusivity `compile_error!`. -/
theorem main_exit_strategy_exclusive (args : List MainArg) (fn : MainFn)
    (h : 2 ≤ exitArgCount args) :
    (∃ e, WheelDerive.main args fn = Except.error e)
    ∧ (unsupportedCount args = 0 → consoleCount args ≤ 1 → rocketCount args ≤ 1 →
        mbtCount args ≤ 1 →
        WheelDerive.main args fn = Except.error CompileError.exitStrategyConflict) := by
  constructor
  · obtain ⟨e, he⟩ := processArgs_two_error (fun s => s.exitTrait.isSome) isExitArg
      (fun s a ha hf => ⟨_, step_error_of_exit s a ha hf⟩)
      step_ok_exit step_preserves_exit args initState
      (by simpa [exitArgCount, initState] using h)
    exact ⟨e, main_error_of_processArgs args fn e he⟩
  · intro hu hc hr hm
    have hc' : consoleCount args + (initState.consolePort.isSome).toNat ≤ 1 := by
      simpa [initState] using hc
    have hr' : rocketCount args + (initState.useRocket).toNat ≤ 1 := by
      simpa [initState] using hr
    have hm' : mbtCount args + (initState.maxBlockingThreads.isSome).toNat ≤ 1 := by
      simpa [initState] using hm
    have he' : 2 ≤ exitArgCount args + (initState.exitTrait.isSome).toNat := by
      simpa [initState] using h
    exact main_error_of_processArgs args fn _
      (processArgs_conflict args initState hu hc' hr' hm' he')

/-- C1 witness: `#[wheel::main(debug, no_debug)]` fails with the
mutual-exclusivity error. -/
theorem main_exit_strategy_exclusive_witness :
    2 ≤ exitArgCount [MainArg.debug, MainArg.noDebug]
    ∧ WheelDerive.main [MainArg.debug, MainArg.noDebug] ⟨false, []⟩
        = Except.error CompileError.exitStrategyConflict := by
  refine ⟨by decide, ?_⟩
  exact (main_exit_strategy_exclusive [MainArg.debug, MainArg.noDebug] ⟨false, []⟩
    (by decide)).2 (by decide) (by decide) (by decide) (by decide)

/-- C8: a wrapped routine with two or more parameters, or a self-receiver,
makes `#[wheel::main]` expansion fail, and when the attribute arguments
themselves are accepted the error is one of the two signature
`compile_error!`s. -/
theorem main_signature_error (args : List MainArg) (fn : MainFn)
    (h : 2 ≤ fn.inputs.length ∨ FnArg.receiver ∈ fn.inputs) :
    (∃ e, WheelDerive.main args fn = Except.error e)
    ∧ (∀ s, processArgs args initState = Except.ok s →
        WheelDerive.main args fn = Except.error CompileError.selfReceiver
        ∨ WheelDerive.main args fn = Except.error CompileError.argCount) := by
  cases hp : processArgs args initState with
  | error e =>
      refine ⟨⟨e, main_error_of_processArgs args fn e hp⟩, ?_⟩
      intro s hs
      exact Except.noConfusion hs
  | ok s0 =>
      have hmain : WheelDerive.main args fn = expand s0 fn := by
        simp [WheelDerive.main, hp]
      have hsig := expand_signature_error s0 fn h
      constructor
      · rcases hsig with hsig | hsig
        · exact ⟨_, by rw [hmain, hsig]⟩
        · exact ⟨_, by rw [hmain, hsig]⟩
      · intro s hs
        rcases hsig with hsig | hsig
        · left
          rw [hmain, hsig]
        · right
          rw [hmain, hsig]

/-- C8 witness: a routine taking `self` fails with the self-receiver
signature error. -/
theorem main_signature_error_witness :
    (2 ≤ (MainFn.mk false [FnArg.receiver]).inputs.length
      ∨ FnArg.receiver ∈ (MainFn.mk false [FnArg.receiver]).inputs)
    ∧ WheelDerive.main [] ⟨false, [FnArg.receiver]⟩
        = Except.error CompileError.selfReceiver := by
  refine ⟨Or.inr (by decide), ?_⟩
  have h2 := (main_signature_error [] ⟨false, [FnArg.receiver]⟩ (Or.inr (by decide))).2
    initState rfl
  rcases h2 with h2 | h2
  · exact h2
  · have hEval : WheelDerive.main [] ⟨false, [FnArg.receiver]⟩
        = Except.error CompileError.selfReceiver := rfl
    rw [hEval] at h2
    injection h2

/-- C10: a `console`, `rocket` or `max_blocking_threads` parameter given
more than once makes `#[wheel::main]` expansion fail, and when the argument
list is otherwise well-formed the reported error is one of the
"specified multiple times" `compile_error!`s. -/
theorem main_combinable_duplicate (args : List MainArg) (fn : MainFn)
    (h : 2 ≤ consoleCount args ∨ 2 ≤ rocketCount args ∨ 2 ≤ mbtCount args) :
    (∃ e, WheelDerive.main args fn = Except.error e)
    ∧ (unsupportedCount args = 0 → exitArgCount args ≤ 1 →
        ∃ e, WheelDerive.main args fn = Except.error e ∧ isMultipleError e = true) := by
  constructor
  · rcases h with h | h | h
    · obtain ⟨e, he⟩ := processArgs_two_error (fun s => s.consolePort.isSome) isConsoleArg
        (fun s a ha hf => ⟨_, step_error_of_console s a ha hf⟩)
        step_ok_console step_preserves_console args initState
        (by simpa [consoleCount, initState] using h)
      exact ⟨e, main_error_of_processArgs args fn e he⟩
    · obtain ⟨e, he⟩ := processArgs_two_error (fun s => s.useRocket) isRocketArg
        (fun s a ha hf => ⟨_, step_error_of_rocket s a ha hf⟩)
        step_ok_rocket step_preserves_rocket args initState
        (by simpa [rocketCount, initState] using h)
      exact ⟨e, main_error_of_processArgs args fn e he⟩
    · obtain ⟨e, he⟩ := processArgs_two_error (fun s => s.maxBlockingThreads.isSome) isMbtArg
        (fun s a ha hf => ⟨_, step_error_of_mbt s a ha hf⟩)
        step_ok_mbt step_preserves_mbt args initState
        (by simpa [mbtCount, initState] using h)
      exact ⟨e, main_error_of_processArgs args fn e he⟩
  · intro hu hexit
    have hd : 2 ≤ consoleCount args + (initState.consolePort.isSome).toNat
        ∨ 2 ≤ rocketCount args + (initState.useRocket).toNat
        ∨ 2 ≤ mbtCount args + (initState.maxBlockingThreads.isSome).toNat := by
      rcases h with h | h | h
      · left
        simpa [initState] using h
      · right; left
        simpa [initState] using h
      · right; right
        simpa [initState] using h
    obtain ⟨e, he, hme⟩ := processArgs_dup args initState hu
      (by simpa [initState] using hexit) hd
    exact ⟨e, main_error_of_processArgs args fn e he, hme⟩

/-- C10 witness: `#[wheel::main(rocket, rocket)]` fails with a
"specified multiple times" error. -/
theorem main_combinable_duplicate_witness :
    2 ≤ rocketCount [MainArg.rocket, MainArg.rocket]
    ∧ ∃ e, WheelDerive.main [MainArg.rocket, MainArg.rocket] ⟨false, []⟩ = Except.error e
        ∧ isMultipleError e = true := by
  refine ⟨by decide, ?_⟩
  exact (main_combinable_duplicate [MainArg.rocket, MainArg.rocket] ⟨false, []⟩
    (Or.inr (Or.inl (by decide)))).2 (by decide) (by decide)

/-- C5 counterexample: with `max_blocking_threads = -2` and detected
available parallelism 2, the generated expression resolves to 0, not to the
floor of 1 the claim states. -/
theorem max_blocking_threads_not_floored :
    resolveMaxBlockingThreads (-2) 2 = 0
    ∧ resolveMaxBlockingThreads (-2) 2 ≠ max 1 (((2 : Int) + (-2)).toNat) := by
  decide

/-- C5 amended: for non-positive `v` and detected parallelism `p ≥ 1`, the
resolved blocking-thread count is `p + v` whenever that sum is non-negative
(so it can be 0 when `v = -p`), and is 1 only when the sum is negative. -/
theorem resolve_max_blocking_threads_amended (v : Int) (p : Nat)
    (hv : v ≤ 0) (_hp : 1 ≤ p) :
    (0 ≤ (p : Int) + v → (resolveMaxBlockingThreads v p : Int) = (p : Int) + v)
    ∧ ((p : Int) + v < 0 → resolveMaxBlockingThreads v p = 1) := by
  constructor
  · intro h
    unfold resolveMaxBlockingThreads
    rw [if_neg (by omega), if_neg (by omega)]
    exact Int.toNat_of_nonneg h
  · intro h
    unfold resolveMaxBlockingThreads
    rw [if_neg (by omega), if_pos h]

/-- C5 witness: `max_blocking_threads = -1` with detected parallelism 8
resolves to 7. -/
theorem resolve_max_blocking_threads_amended_witness :
    ((-1 : Int) ≤ 0 ∧ 1 ≤ 8)
    ∧ resolveMaxBlockingThreads (-1) 8 = 7 := by
  refine ⟨⟨by decide, by decide⟩, ?_⟩
  have h := (resolve_max_blocking_threads_amended (-1) 8 (by decide) (by decide)).1 (by decide)
  have h2 : ((resolveMaxBlockingThreads (-1) 8 : Nat) : Int) = 7 := by
    rw [h]
    decide
  exact_mod_cast h2
